import Mathlib

/-!
Shallow embedding of `results-requests/compare.py`, a benchmark-result
visualization script.  The script reads a fixed set of JSON files (one pair
per framework), extracts `summary.requestsPerSec` and `summary.average`
from each, and renders a two-panel grouped bar chart with value labels,
saving it to `framework_comparison.png` and printing a confirmation line.

Modelling choices:
* JSON numbers are embedded as exact rationals (`ℚ`).
* The file system is a partial map `String → Option Json`; `none` covers a
  file that is missing, unreadable, or not valid JSON (all of which raise
  an unhandled exception in `read_json_file`).
* Unhandled Python exceptions are modelled with `Except Err`; the script is
  straight-line, so the chart write and the console print (which occur
  after the aggregation loop) exist only in the `Except.ok` result.  An
  `Except.error` result means the run aborted with no output file written
  and no confirmation printed.
* `matplotlib`'s `ax.bar(xs, heights, width)` centers each bar on its given
  x coordinate (`align="center"` default); `Bar.x` stores that center and
  `bar.get_x()` corresponds to `bar.x - bar.w / 2`.
* Python's `f"{int(height):,}"` and `f"{height:.2f}"` label formats are
  embedded by `fmtRps` / `fmtLat` below, with `int` as truncation toward
  zero and `.2f` as round-half-to-even at two decimals.
-/

/-- JSON documents, as produced by `json.load`.  Numbers are exact
rationals. -/
inductive Json where
  | null
  | bool (b : Bool)
  | num (q : ℚ)
  | str (s : String)
  | arr (elems : List Json)
  | obj (fields : List (String × Json))

/-- Runtime errors of the script (unhandled Python exceptions):
a data-access error from `read_json_file` (missing / unreadable / invalid
file), a `KeyError` from a dict lookup, a `TypeError` from treating a
non-dict as a dict or a non-number as a number, and an `IndexError` from
`files[i]`. -/
inductive Err where
  | fileError (filename : String)
  | keyError (key : String)
  | typeError
  | indexError

/-- The file system visible to the script: the JSON value a path parses to,
or `none` when opening or parsing it raises. -/
def FS : Type := String → Option Json

/-- `read_json_file(filename)`: `open` + `json.load`, raising on a missing,
unreadable or malformed file. -/
def read_json_file (fs : FS) (filename : String) : Except Err Json :=
  match fs filename with
  | some j => Except.ok j
  | none => Except.error (Err.fileError filename)

/-- Python dict subscript `d[key]`: `KeyError` when the key is absent,
`TypeError` when the value is not a dict. -/
def Json.getKey : Json → String → Except Err Json
  | Json.obj fields, key =>
    match fields.lookup key with
    | some v => Except.ok v
    | none => Except.error (Err.keyError key)
  | _, _ => Except.error Err.typeError

/-- A JSON value used as a number (multiplied, plotted): `TypeError`
otherwise. -/
def Json.asNum : Json → Except Err ℚ
  | Json.num q => Except.ok q
  | _ => Except.error Err.typeError

/-- `data["summary"][key]` used as a number. -/
def getMetric (data : Json) (key : String) : Except Err ℚ := do
  Json.asNum (← Json.getKey (← Json.getKey data "summary") key)

/-- Python list subscript `l[i]`: `IndexError` when out of range. -/
def listGet (l : List String) (i : Nat) : Except Err String :=
  match l.get? i with
  | some s => Except.ok s
  | none => Except.error Err.indexError

/-- The hardcoded framework configuration: name paired with
`[no-schema file, schema file]`, in insertion order. -/
def frameworks : List (String × List String) :=
  [ ("Bun", ["bun_no_schema.json", "bun_schema.json"]),
    ("Elysia", ["elysia_no_schema.json", "elysia_schema.json"]),
    ("Encore", ["encore_no_schema.json", "encore_schema.json"]),
    ("Express", ["express_no_schema.json", "express_schema.json"]),
    ("Fastify", ["fastify_no_schema.json", "fastify_schema.json"]),
    ("Fastify v5", ["fastify-v5_no_schema.json", "fastify-v5_schema.json"]),
    ("Hono", ["hono_no_schema.json", "hono_schema.json"]) ]

/-- Every file path the script reads: both files of every framework. -/
def configuredFiles : List String := frameworks.flatMap Prod.snd

/-- The four numbers one loop iteration appends: `requestsPerSec` of both
files and `average * 1000` of both files. -/
structure Metrics where
  rpsNo : ℚ
  latNo : ℚ
  rpsS : ℚ
  latS : ℚ

/-- One loop iteration's reads and extractions, in source order:
`files[0]`, parse, `summary.requestsPerSec`, `summary.average * 1000`, then
`files[1]` likewise. -/
def extractEntry (fs : FS) (e : String × List String) : Except Err Metrics := do
  let f0 ← listGet e.2 0
  let data ← read_json_file fs f0
  let rps0 ← getMetric data "requestsPerSec"
  let avg0 ← getMetric data "average"
  let f1 ← listGet e.2 1
  let data1 ← read_json_file fs f1
  let rps1 ← getMetric data1 "requestsPerSec"
  let avg1 ← getMetric data1 "average"
  Except.ok ⟨rps0, avg0 * 1000, rps1, avg1 * 1000⟩

/-- The five accumulation lists of the script. -/
structure Agg where
  rps_no_schema : List ℚ
  rps_schema : List ℚ
  latency_no_schema : List ℚ
  latency_schema : List ℚ
  framework_names : List String

/-- The initial (all-empty) accumulator state. -/
def emptyAgg : Agg := ⟨[], [], [], [], []⟩

/-- One iteration of the `for framework, files in frameworks.items()` loop:
extract the four numbers and append one element to each of the five
lists. -/
def processEntry (fs : FS) (e : String × List String) (agg : Agg) :
    Except Err Agg := do
  let m ← extractEntry fs e
  Except.ok
    { rps_no_schema := agg.rps_no_schema ++ [m.rpsNo],
      rps_schema := agg.rps_schema ++ [m.rpsS],
      latency_no_schema := agg.latency_no_schema ++ [m.latNo],
      latency_schema := agg.latency_schema ++ [m.latS],
      framework_names := agg.framework_names ++ [e.1] }

/-- The whole aggregation loop over the configured entries. -/
def aggregate (fs : FS) : List (String × List String) → Agg → Except Err Agg
  | [], agg => Except.ok agg
  | e :: rest, agg => do aggregate fs rest (← processEntry fs e agg)

/-- Little-endian decimal digits, with explicit fuel so the kernel can
reduce it (`[]` for `0`). -/
def natDigitsAux : Nat → Nat → List Nat
  | 0, _ => []
  | _ + 1, 0 => []
  | fuel + 1, n + 1 => (n + 1) % 10 :: natDigitsAux fuel ((n + 1) / 10)

/-- Little-endian decimal digits of `n`. -/
def natDigits (n : Nat) : List Nat := natDigitsAux n n

/-- The character of one decimal digit. -/
def digitChar (d : Nat) : Char := Char.ofNat (48 + d)

/-- Little-endian digit characters with a comma inserted before every
fourth, seventh, ... digit, as Python's `,` format specifier does. -/
def commaLE : List Nat → Nat → List Char
  | [], _ => []
  | d :: ds, k =>
    if k = 3 then ',' :: digitChar d :: commaLE ds 1
    else digitChar d :: commaLE ds (k + 1)

/-- `f"{n:,}"` for a natural number: decimal digits grouped in threes by
commas. -/
def pyCommaNat (n : Nat) : String :=
  match n with
  | 0 => "0"
  | _ => String.mk ((commaLE (natDigits n) 0).reverse)

/-- `f"{z:,}"` for an integer. -/
def pyCommaInt (z : ℤ) : String :=
  if z < 0 then "-" ++ pyCommaNat z.natAbs else pyCommaNat z.natAbs

/-- Python's `int()` on a number: truncation toward zero. -/
def pyTrunc (q : ℚ) : ℤ := if 0 ≤ q then ⌊q⌋ else -⌊-q⌋

/-- Decimal string of a natural number, no grouping. -/
def natStr (n : Nat) : String :=
  match n with
  | 0 => "0"
  | _ => String.mk ((natDigits n).reverse.map digitChar)

/-- Round to the nearest integer, ties to even, as `printf`-style `%.2f`
rounding does on the scaled value. -/
def roundHalfEven (q : ℚ) : ℤ :=
  if q - ⌊q⌋ < mkRat 1 2 then ⌊q⌋
  else if mkRat 1 2 < q - ⌊q⌋ then ⌊q⌋ + 1
  else if ⌊q⌋ % 2 = 0 then ⌊q⌋ else ⌊q⌋ + 1

/-- `f"{q:.2f}"`: sign, integer part, a dot, and exactly two fractional
digits. -/
def pyFormat2 (q : ℚ) : String :=
  let n := roundHalfEven (q * 100)
  let m := n.natAbs
  (if n < 0 then "-" else "") ++
    natStr (m / 100) ++ "." ++ String.mk [digitChar (m / 10 % 10), digitChar (m % 10)]

/-- The throughput value-label format `f"{int(height):,}"`. -/
def fmtRps (h : ℚ) : String := pyCommaInt (pyTrunc h)

/-- The latency value-label format `f"{height:.2f}"`. -/
def fmtLat (h : ℚ) : String := pyFormat2 h

/-- `width = 0.35`, the bar width shared by all bars. -/
def width : ℚ := mkRat 35 100

/-- One rendered bar: the center coordinate handed to `ax.bar`, its height
and width, and the text label drawn at `get_x() + get_width()/2` with the
bar's formatted height. -/
structure Bar where
  x : ℚ
  height : ℚ
  w : ℚ
  label : String

/-- One subplot: its two bar series, axis/y-label text, and x ticks with
their labels. -/
structure Panel where
  bars_no_schema : List Bar
  bars_schema : List Bar
  ylabel : String
  title : String
  xticks : List ℚ
  xticklabels : List String

/-- Everything the script produces: the two panels, the path written by
`plt.savefig`, and the console line printed afterwards. -/
structure Output where
  panel1 : Panel
  panel2 : Panel
  savedFile : String
  console : String

/-- `np.arange(len(framework_names))` as rationals. -/
def xCoords (n : Nat) : List ℚ := (List.range n).map Nat.cast

/-- Build one bar series: centers paired with heights, fixed width, label
text from the height via the panel's format. -/
def mkBars (centers : List ℚ) (heights : List ℚ) (fmt : ℚ → String) :
    List Bar :=
  List.zipWith (fun c h => { x := c, height := h, w := width, label := fmt h }) centers heights

/-- Chart construction from the aggregated data, mirroring the `ax1`/`ax2`
sections of the script. -/
def render (agg : Agg) : Output :=
  let x := xCoords agg.framework_names.length
  { panel1 :=
      { bars_no_schema := mkBars (x.map (fun v => v - width / 2)) agg.rps_no_schema fmtRps,
        bars_schema := mkBars (x.map (fun v => v + width / 2)) agg.rps_schema fmtRps,
        ylabel := "Requests per Second",
        title := "Framework Performance Comparison - Requests per Second (Higher is Better)",
        xticks := x,
        xticklabels := agg.framework_names },
    panel2 :=
      { bars_no_schema := mkBars (x.map (fun v => v - width / 2)) agg.latency_no_schema fmtLat,
        bars_schema := mkBars (x.map (fun v => v + width / 2)) agg.latency_schema fmtLat,
        ylabel := "Average Latency (ms)",
        title := "Framework Performance Comparison - Average Latency (Lower is Better)",
        xticks := x,
        xticklabels := agg.framework_names },
    savedFile := "framework_comparison.png",
    console := "Chart has been saved as \x27framework_comparison.png\x27" }

/-- The whole script: aggregate, then render, save and print; any earlier
unhandled error aborts before the save and the print. -/
def run (fs : FS) : Except Err Output := do
  let agg ← aggregate fs frameworks emptyAgg
  Except.ok (render agg)

/-! ### Success characterizations of the aggregation loop -/

/-- The per-entry extraction results of a run, in configuration order. -/
def extractAll (fs : FS) : List (String × List String) → Except Err (List Metrics)
  | [] => Except.ok []
  | e :: es => do
    let m ← extractEntry fs e
    let ms ← extractAll fs es
    Except.ok (m :: ms)

/-- The accumulator state after a full pass whose per-entry extractions
are `ms`. -/
def builtAgg (ms : List Metrics) : Agg :=
  { rps_no_schema := ms.map Metrics.rpsNo,
    rps_schema := ms.map Metrics.rpsS,
    latency_no_schema := ms.map Metrics.latNo,
    latency_schema := ms.map Metrics.latS,
    framework_names := frameworks.map Prod.fst }

/-- A well-formed benchmark result document with the given
`summary.requestsPerSec` and `summary.average`. -/
def goodDoc (rps avg : ℚ) : Json :=
  Json.obj [("summary",
    Json.obj [("requestsPerSec", Json.num rps), ("average", Json.num avg)])]

/-- A file system on which every configured file is present and
well-formed. -/
def sampleFS : FS := fun _ => some (goodDoc 50000 (mkRat 1 500))

/-- The placeholder used when projecting an `Except.ok` payload. -/
def emptyOutput : Output :=
  ⟨⟨[], [], "", "", [], []⟩, ⟨[], [], "", "", [], []⟩, "", ""⟩

/-- The chart produced from `sampleFS`. -/
def sampleOut : Output :=
  match run sampleFS with
  | Except.ok o => o
  | Except.error _ => emptyOutput

/-- The file system of the spec's concrete scenario: the first framework's
no-schema file holds `requestsPerSec = 50000`, `average = 0.002` and its
schema file holds `requestsPerSec = 42000`, `average = 0.0025`; the other
files are present and well-formed. -/
def scenarioFS : FS := fun name =>
  if name = "bun_no_schema.json" then some (goodDoc 50000 (mkRat 1 500))
  else if name = "bun_schema.json" then some (goodDoc 42000 (mkRat 1 400))
  else some (goodDoc 1000 (mkRat 1 1000))

/-- The chart produced from `scenarioFS`. -/
def scenarioOut : Output :=
  match run scenarioFS with
  | Except.ok o => o
  | Except.error _ => emptyOutput

/-- A file system whose documents all carry the non-integer throughput
value `50000.9` (and average `1`). -/
def fracFS : FS := fun _ => some (goodDoc (mkRat 500009 10) 1)

/-- The chart produced from `fracFS`. -/
def fracOut : Output :=
  match run fracFS with
  | Except.ok o => o
  | Except.error _ => emptyOutput

/-- A file system on which every file is missing. -/
def noneFS : FS := fun _ => none

/-- A document that parses but whose `summary` object lacks the `average`
field. -/
def noAvgDoc : Json :=
  Json.obj [("summary", Json.obj [("requestsPerSec", Json.num 1)])]

/-- A file system on which every configured file is present but its
document's `summary` object lacks the `average` field. -/
def noAvgFS : FS := fun _ => some noAvgDoc

/-- A default bar used when projecting from a list head. -/
def defaultBar : Bar := ⟨0, 0, 0, ""⟩

/-- The first no-schema throughput bar of the `sampleFS` run. -/
def sampleBarN : Bar := sampleOut.panel1.bars_no_schema.headD defaultBar

/-- The first schema throughput bar of the `sampleFS` run. -/
def sampleBarS : Bar := sampleOut.panel1.bars_schema.headD defaultBar

/-- The first no-schema latency bar of the `sampleFS` run. -/
def sampleBarL : Bar := sampleOut.panel2.bars_no_schema.headD defaultBar

/-- The first no-schema throughput bar of the `fracFS` run. -/
def fracBar : Bar := fracOut.panel1.bars_no_schema.headD defaultBar

/-- The accumulator state reached on `sampleFS`. -/
def sampleAgg : Agg :=
  match aggregate sampleFS frameworks emptyAgg with
  | Except.ok a => a
  | Except.error _ => emptyAgg

/-- The gap between the two bars of each within-framework pair: the left
edge of the schema bar minus the right edge of the no-schema bar. -/
def pairGaps (p : Panel) : List ℚ :=
  (p.bars_no_schema.zip p.bars_schema).map
    (fun bp => (bp.2.x - bp.2.w / 2) - (bp.1.x + bp.1.w / 2))

/-- Plain decimal rendering of an integer (sign and digits, no
grouping). -/
def intStr (z : ℤ) : String :=
  (if z < 0 then "-" else "") ++ natStr z.natAbs

theorem listGet_eq_ok {l : List String} {i : Nat} {s : String} :
    listGet l i = Except.ok s ↔ l.get? i = some s := by
  unfold listGet
  cases h : l.get? i <;> simp

theorem read_json_file_eq_ok {fs : FS} {f : String} {j : Json} :
    read_json_file fs f = Except.ok j ↔ fs f = some j := by
  unfold read_json_file
  cases h : fs f <;> simp

/-- Decompose a successful loop iteration into its reads and extractions. -/
theorem extractEntry_ok_elim {fs : FS} {e : String × List String} {m : Metrics}
    (h : extractEntry fs e = Except.ok m) :
    ∃ f0 d0 q0 a0 f1 d1 q1 a1,
      e.2.get? 0 = some f0 ∧ fs f0 = some d0 ∧
      getMetric d0 "requestsPerSec" = Except.ok q0 ∧
      getMetric d0 "average" = Except.ok a0 ∧
      e.2.get? 1 = some f1 ∧ fs f1 = some d1 ∧
      getMetric d1 "requestsPerSec" = Except.ok q1 ∧
      getMetric d1 "average" = Except.ok a1 ∧
      m = ⟨q0, a0 * 1000, q1, a1 * 1000⟩ := by
  unfold extractEntry at h
  simp only [bind, Except.bind] at h
  cases hf0 : listGet e.2 0 with
  | error err => simp [hf0] at h
  | ok f0 =>
  simp only [hf0] at h
  cases hd0 : read_json_file fs f0 with
  | error err => simp [hd0] at h
  | ok d0 =>
  simp only [hd0] at h
  cases hq0 : getMetric d0 "requestsPerSec" with
  | error err => simp [hq0] at h
  | ok q0 =>
  simp only [hq0] at h
  cases ha0 : getMetric d0 "average" with
  | error err => simp [ha0] at h
  | ok a0 =>
  simp only [ha0] at h
  cases hf1 : listGet e.2 1 with
  | error err => simp [hf1] at h
  | ok f1 =>
  simp only [hf1] at h
  cases hd1 : read_json_file fs f1 with
  | error err => simp [hd1] at h
  | ok d1 =>
  simp only [hd1] at h
  cases hq1 : getMetric d1 "requestsPerSec" with
  | error err => simp [hq1] at h
  | ok q1 =>
  simp only [hq1] at h
  cases ha1 : getMetric d1 "average" with
  | error err => simp [ha1] at h
  | ok a1 =>
  simp only [ha1] at h
  simp only [Except.ok.injEq] at h
  exact ⟨f0, d0, q0, a0, f1, d1, q1, a1, listGet_eq_ok.mp hf0,
    read_json_file_eq_ok.mp hd0, hq0, ha0, listGet_eq_ok.mp hf1,
    read_json_file_eq_ok.mp hd1, hq1, ha1, h.symm⟩

/-- A successful aggregation appends, to each accumulator list, exactly the
per-entry values in entry order. -/
theorem aggregate_eq_ok (fs : FS) (es : List (String × List String))
    (agg agg' : Agg) :
    aggregate fs es agg = Except.ok agg' ↔
      ∃ ms, extractAll fs es = Except.ok ms ∧
        agg' = { rps_no_schema := agg.rps_no_schema ++ ms.map Metrics.rpsNo,
                 rps_schema := agg.rps_schema ++ ms.map Metrics.rpsS,
                 latency_no_schema :=
                   agg.latency_no_schema ++ ms.map Metrics.latNo,
                 latency_schema := agg.latency_schema ++ ms.map Metrics.latS,
                 framework_names := agg.framework_names ++ es.map Prod.fst } := by
  induction es generalizing agg with
  | nil =>
    simp only [aggregate, extractAll, Except.ok.injEq]
    constructor
    · rintro rfl
      exact ⟨[], rfl, by simp⟩
    · rintro ⟨ms, hms, rfl⟩
      cases hms
      simp
  | cons e rest ih =>
    simp only [aggregate, processEntry, extractAll, bind, Except.bind]
    cases hm : extractEntry fs e with
    | error err => simp
    | ok m =>
      rw [ih]
      constructor
      · rintro ⟨ms, hms, rfl⟩
        cases hall : extractAll fs rest with
        | error err => rw [hall] at hms; cases hms
        | ok ms0 =>
          rw [hall] at hms
          injection hms with hms
          subst hms
          exact ⟨m :: ms0, rfl, by simp⟩
      · rintro ⟨ms, hms, rfl⟩
        cases hall : extractAll fs rest with
        | error err => rw [hall] at hms; cases hms
        | ok ms0 =>
          rw [hall] at hms
          injection hms with hms
          subst hms
          exact ⟨ms0, rfl, by simp⟩

theorem extractAll_length {fs : FS} {es : List (String × List String)}
    {ms : List Metrics} (h : extractAll fs es = Except.ok ms) :
    ms.length = es.length := by
  induction es generalizing ms with
  | nil => simp only [extractAll, Except.ok.injEq] at h; subst h; rfl
  | cons e rest ih =>
    simp only [extractAll, bind, Except.bind] at h
    cases hm : extractEntry fs e with
    | error err => simp [hm] at h
    | ok m =>
      simp only [hm] at h
      cases hall : extractAll fs rest with
      | error err => simp [hall] at h
      | ok ms0 =>
        simp only [hall, Except.ok.injEq] at h
        subst h
        simp [ih hall]

theorem extractAll_get? {fs : FS} {es : List (String × List String)}
    {ms : List Metrics} (h : extractAll fs es = Except.ok ms) (i : Nat)
    {e : String × List String} (he : es.get? i = some e) :
    ∃ m, ms.get? i = some m ∧ extractEntry fs e = Except.ok m := by
  induction es generalizing ms i with
  | nil => simp at he
  | cons e0 rest ih =>
    simp only [extractAll, bind, Except.bind] at h
    cases hm : extractEntry fs e0 with
    | error err => simp [hm] at h
    | ok m0 =>
      simp only [hm] at h
      cases hall : extractAll fs rest with
      | error err => simp [hall] at h
      | ok ms0 =>
        simp only [hall, Except.ok.injEq] at h
        subst h
        cases i with
        | zero =>
          simp only [List.get?] at he
          injection he with he
          subst he
          exact ⟨m0, rfl, hm⟩
        | succ j =>
          simp only [List.get?] at he ⊢
          exact ih hall j he

/-- A successful run is exactly the rendering of the per-entry extraction
results. -/
theorem run_ok_elim {fs : FS} {out : Output} (h : run fs = Except.ok out) :
    ∃ ms, extractAll fs frameworks = Except.ok ms ∧
      out = render (builtAgg ms) := by
  unfold run at h
  simp only [bind, Except.bind] at h
  cases hagg : aggregate fs frameworks emptyAgg with
  | error err => simp [hagg] at h
  | ok agg =>
    simp only [hagg, Except.ok.injEq] at h
    obtain ⟨ms, hms, rfl⟩ :=
      (aggregate_eq_ok fs frameworks emptyAgg agg).mp hagg
    refine ⟨ms, hms, ?_⟩
    rw [← h]
    simp [builtAgg, emptyAgg]

theorem mkBars_get? {cs hs : List ℚ} {fmt : ℚ → String} {i : Nat} {b : Bar} :
    (mkBars cs hs fmt).get? i = some b ↔
      ∃ c h, cs.get? i = some c ∧ hs.get? i = some h ∧
        b = ⟨c, h, width, fmt h⟩ := by
  unfold mkBars
  rw [List.get?_zipWith_eq_some]
  constructor
  · rintro ⟨c, h, hc, hh, rfl⟩
    exact ⟨c, h, hc, hh, rfl⟩
  · rintro ⟨c, h, hc, hh, rfl⟩
    exact ⟨c, h, hc, hh, rfl⟩

/-! ### Shared concrete-run evaluations (used by the witnesses) -/

theorem run_sampleFS : run sampleFS = Except.ok sampleOut := by
  with_unfolding_all rfl

theorem run_scenarioFS : run scenarioFS = Except.ok scenarioOut := by
  with_unfolding_all rfl

theorem run_fracFS : run fracFS = Except.ok fracOut := by
  with_unfolding_all rfl

theorem aggregate_sampleFS :
    aggregate sampleFS frameworks emptyAgg = Except.ok sampleAgg := by
  with_unfolding_all rfl

/-! ### The claims -/

/-- C2: after the aggregation pass, the four aggregated sequences and the
framework-name sequence have equal length; each successful pass over a
list of entries grows all five lists by exactly the number of entries, so
the equality holds at the end of every loop iteration (instantiate `es`
with any prefix of the configuration, or with one entry for the single
iteration step). -/
theorem aggregation_length_invariant (fs : FS)
    (es : List (String × List String)) (agg0 agg1 : Agg) (n : Nat)
    (h0 : agg0.rps_no_schema.length = n ∧ agg0.rps_schema.length = n ∧
      agg0.latency_no_schema.length = n ∧ agg0.latency_schema.length = n ∧
      agg0.framework_names.length = n)
    (h : aggregate fs es agg0 = Except.ok agg1) :
    agg1.rps_no_schema.length = n + es.length ∧
    agg1.rps_schema.length = n + es.length ∧
    agg1.latency_no_schema.length = n + es.length ∧
    agg1.latency_schema.length = n + es.length ∧
    agg1.framework_names.length = n + es.length := by
  obtain ⟨ms, hms, rfl⟩ := (aggregate_eq_ok fs es agg0 agg1).mp h
  obtain ⟨h1, h2, h3, h4, h5⟩ := h0
  have hlen := extractAll_length hms
  simp [h1, h2, h3, h4, h5, hlen]

/-- Witness for C2: the invariant instantiated on a concrete file system,
starting from the empty accumulator. -/
theorem aggregation_length_invariant_witness :
    sampleAgg.rps_no_schema.length = 0 + frameworks.length ∧
    sampleAgg.rps_schema.length = 0 + frameworks.length ∧
    sampleAgg.latency_no_schema.length = 0 + frameworks.length ∧
    sampleAgg.latency_schema.length = 0 + frameworks.length ∧
    sampleAgg.framework_names.length = 0 + frameworks.length :=
  aggregation_length_invariant sampleFS frameworks emptyAgg sampleAgg 0
    ⟨rfl, rfl, rfl, rfl, rfl⟩ aggregate_sampleFS

/-- C5: in both panels the number of x-axis tick categories equals the
number of configured framework entries, and the tick labels are exactly
the framework names in configuration order. -/
theorem xticks_match_configuration (fs : FS) (out : Output)
    (h : run fs = Except.ok out) :
    out.panel1.xticks.length = frameworks.length ∧
    out.panel2.xticks.length = frameworks.length ∧
    out.panel1.xticklabels = frameworks.map Prod.fst ∧
    out.panel2.xticklabels = frameworks.map Prod.fst := by
  obtain ⟨ms, hms, rfl⟩ := run_ok_elim h
  refine ⟨?_, ?_, rfl, rfl⟩ <;>
    simp only [render, builtAgg, xCoords, List.length_map, List.length_range]

/-- Witness for C5: the tick property on a concrete successful run. -/
theorem xticks_match_configuration_witness :
    sampleOut.panel1.xticks.length = frameworks.length ∧
    sampleOut.panel2.xticks.length = frameworks.length ∧
    sampleOut.panel1.xticklabels = frameworks.map Prod.fst ∧
    sampleOut.panel2.xticklabels = frameworks.map Prod.fst :=
  xticks_match_configuration sampleFS sampleOut run_sampleFS

theorem get?_lt {α : Type} {l : List α} {i : Nat} {a : α}
    (h : l.get? i = some a) : i < l.length :=
  (List.get?_eq_some.mp h).1

theorem map_xCoords_get? {n i : Nat} (h : i < n) (g : ℚ → ℚ) :
    ((xCoords n).map g).get? i = some (g i) := by
  unfold xCoords
  rw [List.get?_map, List.get?_map, List.get?_range h]
  rfl

theorem mkBars_map_height_get? {cs hs : List ℚ} {fmt : ℚ → String} {i : Nat}
    {c h0 : ℚ} (hc : cs.get? i = some c) (hh : hs.get? i = some h0) :
    ((mkBars cs hs fmt).map Bar.height).get? i = some h0 := by
  rw [List.get?_map, mkBars_get?.mpr ⟨c, h0, hc, hh, rfl⟩]
  rfl

/-- Every bar of a series has the fixed width and carries the format of its
own height as its label. -/
theorem mkBars_mem {cs hs : List ℚ} {fmt : ℚ → String} {b : Bar}
    (hb : b ∈ mkBars cs hs fmt) : b.label = fmt b.height ∧ b.w = width := by
  obtain ⟨i, hi⟩ := List.mem_iff_get?.mp hb
  obtain ⟨c, h0, _, _, rfl⟩ := mkBars_get?.mp hi
  exact ⟨rfl, rfl⟩

/-- C1: for every configured framework entry, the plotted no-schema bars
take their throughput value from the entry's first file's
`summary.requestsPerSec` and their latency value from that file's
`summary.average * 1000`, and likewise the schema bars from the entry's
second file. -/
theorem bar_values_match_inputs (fs : FS) (out : Output)
    (h : run fs = Except.ok out) (i : Nat) (name : String)
    (files : List String) (he : frameworks.get? i = some (name, files))
    (f0 f1 : String) (d0 d1 : Json) (q0 a0 q1 a1 : ℚ)
    (hf0 : files.get? 0 = some f0) (hd0 : fs f0 = some d0)
    (hq0 : getMetric d0 "requestsPerSec" = Except.ok q0)
    (ha0 : getMetric d0 "average" = Except.ok a0)
    (hf1 : files.get? 1 = some f1) (hd1 : fs f1 = some d1)
    (hq1 : getMetric d1 "requestsPerSec" = Except.ok q1)
    (ha1 : getMetric d1 "average" = Except.ok a1) :
    (out.panel1.bars_no_schema.map Bar.height).get? i = some q0 ∧
    (out.panel1.bars_schema.map Bar.height).get? i = some q1 ∧
    (out.panel2.bars_no_schema.map Bar.height).get? i = some (a0 * 1000) ∧
    (out.panel2.bars_schema.map Bar.height).get? i = some (a1 * 1000) := by
  obtain ⟨ms, hms, rfl⟩ := run_ok_elim h
  obtain ⟨m, hm, hext⟩ := extractAll_get? hms i he
  obtain ⟨f0', d0', q0', a0', f1', d1', q1', a1', hf0', hd0', hq0', ha0',
    hf1', hd1', hq1', ha1', rfl⟩ := extractEntry_ok_elim hext
  rw [hf0] at hf0'
  injection hf0' with hf0'
  subst hf0'
  rw [hd0] at hd0'
  injection hd0' with hd0'
  subst hd0'
  rw [hq0] at hq0'
  injection hq0' with hq0'
  subst hq0'
  rw [ha0] at ha0'
  injection ha0' with ha0'
  subst ha0'
  rw [hf1] at hf1'
  injection hf1' with hf1'
  subst hf1'
  rw [hd1] at hd1'
  injection hd1' with hd1'
  subst hd1'
  rw [hq1] at hq1'
  injection hq1' with hq1'
  subst hq1'
  rw [ha1] at ha1'
  injection ha1' with ha1'
  subst ha1'
  have hi : i < frameworks.length := get?_lt he
  have hn : i < (frameworks.map Prod.fst).length := by
    rw [List.length_map]; exact hi
  simp only [render, builtAgg]
  refine ⟨?_, ?_, ?_, ?_⟩ <;>
    exact mkBars_map_height_get? (map_xCoords_get? hn _)
      (by rw [List.get?_map, hm]; rfl)

/-- Witness for C1: the bar-value property instantiated at the first entry
of a concrete successful run. -/
theorem bar_values_match_inputs_witness :
    (sampleOut.panel1.bars_no_schema.map Bar.height).get? 0 = some 50000 ∧
    (sampleOut.panel1.bars_schema.map Bar.height).get? 0 = some 50000 ∧
    (sampleOut.panel2.bars_no_schema.map Bar.height).get? 0 =
      some (mkRat 1 500 * 1000) ∧
    (sampleOut.panel2.bars_schema.map Bar.height).get? 0 =
      some (mkRat 1 500 * 1000) :=
  bar_values_match_inputs sampleFS sampleOut run_sampleFS 0 "Bun"
    ["bun_no_schema.json", "bun_schema.json"] rfl
    "bun_no_schema.json" "bun_schema.json" (goodDoc 50000 (mkRat 1 500))
    (goodDoc 50000 (mkRat 1 500)) 50000 (mkRat 1 500) 50000 (mkRat 1 500)
    rfl rfl (by with_unfolding_all rfl) (by with_unfolding_all rfl)
    rfl rfl (by with_unfolding_all rfl) (by with_unfolding_all rfl)

theorem mem_two_list {l : List String} (h2 : l.length = 2) {f : String}
    (hf : f ∈ l) : l.get? 0 = some f ∨ l.get? 1 = some f := by
  obtain ⟨a, b, rfl⟩ := List.length_eq_two.mp h2
  rcases List.mem_cons.mp hf with rfl | hf'
  · exact Or.inl rfl
  · rcases List.mem_cons.mp hf' with rfl | hf''
    · exact Or.inr rfl
    · cases hf''

/-- Every configured file is the first or the second file of some
configured entry. -/
theorem mem_configured {f : String} (hf : f ∈ configuredFiles) :
    ∃ e, e ∈ frameworks ∧ (e.2.get? 0 = some f ∨ e.2.get? 1 = some f) := by
  unfold configuredFiles at hf
  obtain ⟨e, he, hfe⟩ := List.mem_flatMap.mp hf
  have h2 : e.2.length = 2 := by fin_cases he <;> rfl
  exact ⟨e, he, mem_two_list h2 hfe⟩

/-- On a successful run, every configured entry's extraction succeeded. -/
theorem run_ok_entry {fs : FS} {out : Output} (h : run fs = Except.ok out)
    {e : String × List String} (he : e ∈ frameworks) :
    ∃ m, extractEntry fs e = Except.ok m := by
  obtain ⟨ms, hms, _⟩ := run_ok_elim h
  obtain ⟨i, hi⟩ := List.mem_iff_get?.mp he
  obtain ⟨m, _, hm⟩ := extractAll_get? hms i hi
  exact ⟨m, hm⟩

/-- C3: if any configured input file is missing, unreadable, or not valid
JSON (`fs f = none`), the run aborts with an error: it never reaches the
`Except.ok` result that carries the output-image write and the console
confirmation. -/
theorem missing_file_aborts_run (fs : FS) (f : String)
    (hf : f ∈ configuredFiles) (hnone : fs f = none) (out : Output) :
    run fs ≠ Except.ok out := by
  intro h
  obtain ⟨e, he, hpos⟩ := mem_configured hf
  obtain ⟨m, hm⟩ := run_ok_entry h he
  obtain ⟨f0, d0, q0, a0, f1, d1, q1, a1, hf0, hd0, _, _, hf1, hd1, _, _, _⟩ :=
    extractEntry_ok_elim hm
  rcases hpos with hp | hp
  · rw [hf0] at hp
    injection hp with hp
    subst hp
    rw [hnone] at hd0
    cases hd0
  · rw [hf1] at hp
    injection hp with hp
    subst hp
    rw [hnone] at hd1
    cases hd1

/-- Witness for C3: with every file missing, the run does not produce the
output. -/
theorem missing_file_aborts_run_witness :
    "bun_no_schema.json" ∈ configuredFiles ∧
    noneFS "bun_no_schema.json" = none ∧
    run noneFS ≠ Except.ok emptyOutput :=
  ⟨by decide, rfl,
    missing_file_aborts_run noneFS "bun_no_schema.json" (by decide) rfl
      emptyOutput⟩

/-- C4: if a configured input document parses but `summary.requestsPerSec`
or `summary.average` cannot be extracted from it (missing key or wrong
shape), the run aborts with an error; no default is substituted and no
output is produced. -/
theorem missing_field_aborts_run (fs : FS) (f : String) (j : Json)
    (hf : f ∈ configuredFiles) (hj : fs f = some j)
    (hmiss : (∀ q, getMetric j "requestsPerSec" ≠ Except.ok q) ∨
      (∀ q, getMetric j "average" ≠ Except.ok q))
    (out : Output) : run fs ≠ Except.ok out := by
  intro h
  obtain ⟨e, he, hpos⟩ := mem_configured hf
  obtain ⟨m, hm⟩ := run_ok_entry h he
  obtain ⟨f0, d0, q0, a0, f1, d1, q1, a1, hf0, hd0, hq0, ha0, hf1, hd1, hq1,
    ha1, _⟩ := extractEntry_ok_elim hm
  rcases hpos with hp | hp
  · rw [hf0] at hp
    injection hp with hp
    subst hp
    rw [hj] at hd0
    injection hd0 with hd0
    subst hd0
    rcases hmiss with hh | hh
    · exact hh q0 hq0
    · exact hh a0 ha0
  · rw [hf1] at hp
    injection hp with hp
    subst hp
    rw [hj] at hd1
    injection hd1 with hd1
    subst hd1
    rcases hmiss with hh | hh
    · exact hh q1 hq1
    · exact hh a1 ha1

/-- Witness for C4: with every document lacking `summary.average`, the run
does not produce the output. -/
theorem missing_field_aborts_run_witness :
    "bun_no_schema.json" ∈ configuredFiles ∧
    noAvgFS "bun_no_schema.json" = some noAvgDoc ∧
    run noAvgFS ≠ Except.ok emptyOutput :=
  ⟨by decide, rfl,
    missing_field_aborts_run noAvgFS "bun_no_schema.json" noAvgDoc (by decide)
      rfl
      (Or.inr (fun q hq => by
        rw [show getMetric noAvgDoc "average" =
            Except.error (Err.keyError "average") from by
          with_unfolding_all rfl] at hq
        cases hq))
      emptyOutput⟩

theorem natDigitsAux_lt {fuel : Nat} : ∀ {n : Nat} (d : Nat),
    d ∈ natDigitsAux fuel n → d < 10 := by
  induction fuel with
  | zero => intro n d hd; simp [natDigitsAux] at hd
  | succ k ih =>
    intro n d hd
    cases n with
    | zero => simp [natDigitsAux] at hd
    | succ n' =>
      simp only [natDigitsAux, List.mem_cons] at hd
      rcases hd with rfl | hd
      · exact Nat.mod_lt _ (by norm_num)
      · exact ih _ hd

theorem natDigits_lt (n : Nat) : ∀ d ∈ natDigits n, d < 10 :=
  fun d hd => natDigitsAux_lt d hd

theorem digitChar_ne_comma {d : Nat} (hd : d < 10) :
    (digitChar d != ',') = true := by
  interval_cases d <;> decide

/-- Removing the commas from the grouped digit string leaves exactly the
digit characters. -/
theorem commaLE_filter : ∀ (ds : List Nat), (∀ d ∈ ds, d < 10) →
    ∀ k, (commaLE ds k).filter (fun c => c != ',') = ds.map digitChar := by
  intro ds
  induction ds with
  | nil => intro _ k; rfl
  | cons d ds ih =>
    intro hds k
    have hd := hds d (List.mem_cons_self d ds)
    have hds' : ∀ x ∈ ds, x < 10 :=
      fun x hx => hds x (List.mem_cons_of_mem _ hx)
    unfold commaLE
    by_cases hk : k = 3
    · rw [if_pos hk]
      simp only [List.filter_cons]
      rw [show ((',' : Char) != ',') = false from rfl,
        digitChar_ne_comma hd, ih hds' 1]
      rfl
    · rw [if_neg hk]
      simp only [List.filter_cons]
      rw [digitChar_ne_comma hd, ih hds' (k + 1)]
      rfl

theorem pyCommaNat_filter (n : Nat) :
    (pyCommaNat n).data.filter (fun c => c != ',') = (natStr n).data := by
  cases n with
  | zero => rfl
  | succ n' =>
    show ((commaLE (natDigits (n' + 1)) 0).reverse).filter
        (fun c => c != ',') = ((natDigits (n' + 1)).reverse.map digitChar)
    rw [List.filter_reverse, commaLE_filter _ (natDigits_lt _) 0,
      List.map_reverse]

/-- Dropping the commas from `f"{z:,}"` yields the plain decimal rendering
of `z`: the grouped label denotes exactly the integer `z`. -/
theorem pyCommaInt_filter (z : ℤ) :
    (pyCommaInt z).data.filter (fun c => c != ',') = (intStr z).data := by
  unfold pyCommaInt intStr
  by_cases hz : z < 0
  · rw [if_pos hz, if_pos hz, String.data_append, String.data_append,
      List.filter_append, pyCommaNat_filter]
    rfl
  · rw [if_neg hz, if_neg hz, String.data_append, pyCommaNat_filter]
    rfl

/-- `f"{q:.2f}"` always ends in a dot followed by exactly two digits. -/
theorem pyFormat2_parts (q : ℚ) :
    ∃ s t, pyFormat2 q = s ++ "." ++ t ∧ t.length = 2 :=
  ⟨(if roundHalfEven (q * 100) < 0 then "-" else "") ++
      natStr ((roundHalfEven (q * 100)).natAbs / 100),
    String.mk [digitChar ((roundHalfEven (q * 100)).natAbs / 10 % 10),
      digitChar ((roundHalfEven (q * 100)).natAbs % 10)],
    rfl, rfl⟩

/-- C6: every throughput bar is labelled with its value as a
thousands-grouped integer (`f"{int(height):,}"`; stripping the commas
leaves the plain decimal rendering of the truncated value), and every
latency bar is labelled with its value rendered to exactly two decimal
places (`f"{height:.2f}"`). -/
theorem value_label_formats (fs : FS) (out : Output)
    (h : run fs = Except.ok out) :
    (∀ b ∈ out.panel1.bars_no_schema ++ out.panel1.bars_schema,
      b.label = pyCommaInt (pyTrunc b.height) ∧
      b.label.data.filter (fun c => c != ',') =
        (intStr (pyTrunc b.height)).data) ∧
    (∀ b ∈ out.panel2.bars_no_schema ++ out.panel2.bars_schema,
      b.label = pyFormat2 b.height ∧
      ∃ s t, b.label = s ++ "." ++ t ∧ t.length = 2) := by
  obtain ⟨ms, hms, rfl⟩ := run_ok_elim h
  constructor
  · intro b hb
    have hlab : b.label = fmtRps b.height := by
      rcases List.mem_append.mp hb with hb | hb <;>
      · simp only [render] at hb
        exact (mkBars_mem hb).1
    refine ⟨hlab, ?_⟩
    rw [hlab]
    exact pyCommaInt_filter _
  · intro b hb
    have hlab : b.label = fmtLat b.height := by
      rcases List.mem_append.mp hb with hb | hb <;>
      · simp only [render] at hb
        exact (mkBars_mem hb).1
    refine ⟨hlab, ?_⟩
    rw [hlab]
    exact pyFormat2_parts b.height

/-- Witness for C6: the label formats of the first throughput and latency
bars of a concrete successful run. -/
theorem value_label_formats_witness :
    (sampleBarN.label = pyCommaInt (pyTrunc sampleBarN.height) ∧
      sampleBarN.label.data.filter (fun c => c != ',') =
        (intStr (pyTrunc sampleBarN.height)).data) ∧
    (sampleBarL.label = pyFormat2 sampleBarL.height ∧
      ∃ s t, sampleBarL.label = s ++ "." ++ t ∧ t.length = 2) :=
  ⟨(value_label_formats sampleFS sampleOut run_sampleFS).1 sampleBarN
      (List.mem_append.mpr (Or.inl
        (List.mem_of_mem_head? (by with_unfolding_all rfl)))),
    (value_label_formats sampleFS sampleOut run_sampleFS).2 sampleBarL
      (List.mem_append.mpr (Or.inl
        (List.mem_of_mem_head? (by with_unfolding_all rfl))))⟩

theorem xCoords_get? {n i : Nat} (h : i < n) :
    (xCoords n).get? i = some (i : ℚ) := by
  unfold xCoords
  rw [List.get?_map, List.get?_range h]
  rfl

/-- C7 (amended): within each panel, the two bars of a framework's pair
both have the fixed width `0.35`; the right edge of the no-schema bar
coincides with the left edge of the schema bar (the bars are adjacent,
with zero gap), and the pair is centered on that framework's x-axis
tick. -/
theorem bar_pair_layout (fs : FS) (out : Output)
    (h : run fs = Except.ok out) (p : Panel)
    (hp : p = out.panel1 ∨ p = out.panel2) (i : Nat) (bn bs : Bar)
    (hbn : p.bars_no_schema.get? i = some bn)
    (hbs : p.bars_schema.get? i = some bs) :
    bn.w = width ∧ bs.w = width ∧
    bn.x + bn.w / 2 = bs.x - bs.w / 2 ∧
    p.xticks.get? i = some ((bn.x + bs.x) / 2) := by
  obtain ⟨ms, hms, rfl⟩ := run_ok_elim h
  rcases hp with rfl | rfl <;>
  · simp only [render, builtAgg] at hbn hbs ⊢
    obtain ⟨c, h0, hc, hh, rfl⟩ := mkBars_get?.mp hbn
    obtain ⟨c', h0', hc', hh', rfl⟩ := mkBars_get?.mp hbs
    have hn : i < (frameworks.map Prod.fst).length := by
      have h' := get?_lt hc
      rw [List.length_map] at h'
      unfold xCoords at h'
      rwa [List.length_map, List.length_range] at h'
    rw [map_xCoords_get? hn _] at hc hc'
    injection hc with hc
    injection hc' with hc'
    subst hc
    subst hc'
    refine ⟨rfl, rfl, by ring, ?_⟩
    rw [show ((((i : ℚ) - width / 2) + ((i : ℚ) + width / 2)) / 2) = (i : ℚ)
      from by ring]
    exact xCoords_get? hn

/-- Witness for C7's amended layout property: the first pair of throughput
bars of a concrete successful run. -/
theorem bar_pair_layout_witness :
    sampleBarN.w = width ∧ sampleBarS.w = width ∧
    sampleBarN.x + sampleBarN.w / 2 = sampleBarS.x - sampleBarS.w / 2 ∧
    sampleOut.panel1.xticks.get? 0 =
      some ((sampleBarN.x + sampleBarS.x) / 2) :=
  bar_pair_layout sampleFS sampleOut run_sampleFS sampleOut.panel1
    (Or.inl rfl) 0 sampleBarN sampleBarS (by with_unfolding_all rfl)
    (by with_unfolding_all rfl)

/-- Counterexample for C7 as stated: on a concrete run the gap between the
two bars of a pair is `0`, not a positive "small gap" — the bars are
exactly adjacent. -/
theorem bar_pair_gap_counterexample :
    run sampleFS = Except.ok sampleOut ∧
    pairGaps sampleOut.panel1 = List.replicate 7 0 ∧
    ¬ (∀ g ∈ pairGaps sampleOut.panel1, 0 < g) := by
  refine ⟨run_sampleFS, by with_unfolding_all rfl, ?_⟩
  intro hall
  have h0 : (0 : ℚ) ∈ pairGaps sampleOut.panel1 := by
    rw [show pairGaps sampleOut.panel1 = List.replicate 7 0 from by
      with_unfolding_all rfl]
    exact List.mem_replicate.mpr ⟨by norm_num, rfl⟩
  exact absurd (hall 0 h0) (lt_irrefl 0)

/-- C8: in the spec's concrete scenario (no-schema file with
`requestsPerSec = 50000`, `average = 0.002`; schema file with
`requestsPerSec = 42000`, `average = 0.0025` for the first framework), the
throughput panel shows that framework's bars at 50000 and 42000 labelled
"50,000" and "42,000", and the latency panel shows its bars at 2.0 ms and
2.5 ms labelled "2.00" and "2.50". -/
theorem concrete_scenario_bars :
    run scenarioFS = Except.ok scenarioOut ∧
    (scenarioOut.panel1.bars_no_schema.map Bar.height).head? = some 50000 ∧
    (scenarioOut.panel1.bars_schema.map Bar.height).head? = some 42000 ∧
    (scenarioOut.panel1.bars_no_schema.map Bar.label).head? = some "50,000" ∧
    (scenarioOut.panel1.bars_schema.map Bar.label).head? = some "42,000" ∧
    (scenarioOut.panel2.bars_no_schema.map Bar.height).head? = some 2 ∧
    (scenarioOut.panel2.bars_schema.map Bar.height).head? =
      some (mkRat 5 2) ∧
    (scenarioOut.panel2.bars_no_schema.map Bar.label).head? = some "2.00" ∧
    (scenarioOut.panel2.bars_schema.map Bar.label).head? = some "2.50" := by
  with_unfolding_all
  exact ⟨rfl, rfl, rfl, rfl, rfl, rfl, rfl, rfl, rfl⟩

theorem extractEntry_congr (fs1 fs2 : FS) (e : String × List String)
    (h : ∀ f ∈ e.2, fs1 f = fs2 f) :
    extractEntry fs1 e = extractEntry fs2 e := by
  unfold extractEntry
  simp only [bind, Except.bind]
  cases hf0 : listGet e.2 0 with
  | error err => rfl
  | ok f0 =>
    simp only []
    have hr0 : read_json_file fs1 f0 = read_json_file fs2 f0 := by
      unfold read_json_file
      rw [h f0 (List.get?_mem (listGet_eq_ok.mp hf0))]
    rw [hr0]
    cases hd0 : read_json_file fs2 f0 with
    | error err => rfl
    | ok d0 =>
      simp only []
      cases hq0 : getMetric d0 "requestsPerSec" with
      | error err => rfl
      | ok q0 =>
        simp only []
        cases ha0 : getMetric d0 "average" with
        | error err => rfl
        | ok a0 =>
          simp only []
          cases hf1 : listGet e.2 1 with
          | error err => rfl
          | ok f1 =>
            simp only []
            have hr1 : read_json_file fs1 f1 = read_json_file fs2 f1 := by
              unfold read_json_file
              rw [h f1 (List.get?_mem (listGet_eq_ok.mp hf1))]
            rw [hr1]

theorem aggregate_congr (fs1 fs2 : FS) (es : List (String × List String))
    (h : ∀ e ∈ es, ∀ f ∈ e.2, fs1 f = fs2 f) (agg : Agg) :
    aggregate fs1 es agg = aggregate fs2 es agg := by
  induction es generalizing agg with
  | nil => rfl
  | cons e rest ih =>
    simp only [aggregate, processEntry, bind, Except.bind]
    rw [extractEntry_congr fs1 fs2 e (h e (List.mem_cons_self e rest))]
    cases hm : extractEntry fs2 e with
    | error err => rfl
    | ok m =>
      exact ih (fun e' he' f hf => h e' (List.mem_cons_of_mem _ he') f hf) _

/-- C9: the run is a deterministic function of the contents of the
configured input files: two file systems that agree on every configured
file produce identical results — the same aggregated sequences, bars,
labels, saved path and console line (and in particular, running twice on
unchanged inputs gives identical output). -/
theorem run_is_deterministic (fs1 fs2 : FS)
    (h : ∀ f ∈ configuredFiles, fs1 f = fs2 f) : run fs1 = run fs2 := by
  unfold run
  simp only [bind, Except.bind]
  rw [aggregate_congr fs1 fs2 frameworks
    (fun e he f hf => h f (List.mem_flatMap.mpr ⟨e, he, hf⟩)) emptyAgg]

/-- Witness for C9: two executions on the same concrete file system agree. -/
theorem run_is_deterministic_witness :
    run sampleFS = run sampleFS :=
  run_is_deterministic sampleFS sampleFS (fun _ _ => rfl)

/-- C10: the throughput value label is computed by truncating the bar's
value toward zero (`int(height)`: floor for non-negative values, ceiling
for negative ones) before thousands-grouping — not by rounding to the
nearest integer. -/
theorem throughput_label_truncates_toward_zero (fs : FS) (out : Output)
    (h : run fs = Except.ok out) (b : Bar)
    (hb : b ∈ out.panel1.bars_no_schema ++ out.panel1.bars_schema) :
    b.label = pyCommaInt (pyTrunc b.height) ∧
    (0 ≤ b.height → pyTrunc b.height = ⌊b.height⌋) ∧
    (b.height < 0 → pyTrunc b.height = ⌈b.height⌉) := by
  obtain ⟨ms, hms, rfl⟩ := run_ok_elim h
  refine ⟨?_, ?_, ?_⟩
  · rcases List.mem_append.mp hb with hb | hb <;>
    · simp only [render] at hb
      exact (mkBars_mem hb).1
  · intro hpos
    unfold pyTrunc
    rw [if_pos hpos]
  · intro hneg
    unfold pyTrunc
    rw [if_neg (not_le.mpr hneg), Int.floor_neg, neg_neg]

/-- Witness for C10: a bar of height `50000.9` is labelled "50,000" (the
truncation), not "50,001" (the nearest integer). -/
theorem throughput_label_truncates_toward_zero_witness :
    fracBar.height = mkRat 500009 10 ∧ fracBar.label = "50,000" ∧
    fracBar.label = pyCommaInt (pyTrunc fracBar.height) ∧
    (0 ≤ fracBar.height → pyTrunc fracBar.height = ⌊fracBar.height⌋) ∧
    (fracBar.height < 0 → pyTrunc fracBar.height = ⌈fracBar.height⌉) :=
  ⟨by with_unfolding_all rfl, by with_unfolding_all rfl,
    (throughput_label_truncates_toward_zero fracFS fracOut run_fracFS fracBar
      (List.mem_append.mpr (Or.inl
        (List.mem_of_mem_head? (by with_unfolding_all rfl)))))⟩
